import Mathlib

/-!
Shallow embedding of the harmonization ETL pipeline:
  * `src/TransformETL/__init__.py` — `process_and_harmonize_data` (module level,
    lines 29-90) and the repaired copy nested inside `main` (lines 139-176),
    here `main_process_and_harmonize_data`.
  * `src/NotificationFunction/__init__.py` — `validate_harmonized_schema`
    (lines 14-33) and the event filter in `main` (lines 59-61).

Numbers: pandas reads `qty` as an integer column (ℤ) and `unit_price` /
`revenue` as float columns holding exact two-decimal inputs; they are modelled
as ℚ.  Timestamps are modelled as epoch seconds (ℤ); `pd.to_datetime` /
`isoformat` are modelled by an explicit proleptic-Gregorian conversion for the
ISO-8601 `YYYY-MM-DDTHH:MM:SS(+00:00|Z)?` shapes the pipeline exchanges
(`pd.to_datetime` accepts more formats and checks calendar ranges; the model
accepts any digit pattern, a harmless over-approximation for theorems that
hypothesise a successful run).  `datetime.fromtimestamp(run_ts / 1000)` uses
the host-local clock; the model uses the UTC clock and whole-second `run_ts`.
-/

/-! ## Calendar arithmetic (models pandas/datetime timestamp handling) -/

/-- Days since the Unix epoch for a proleptic-Gregorian civil date
(standard "days from civil" algorithm; `Int.fdiv` is floor division). -/
def daysFromCivil (y m d : ℤ) : ℤ :=
  let y2 := y - (if m ≤ 2 then 1 else 0)
  let era := y2.fdiv 400
  let yoe := y2 - era * 400
  let mp := m + (if 2 < m then -3 else 9)
  let doy := (153 * mp + 2).fdiv 5 + d - 1
  let doe := yoe * 365 + yoe.fdiv 4 - yoe.fdiv 100 + doy
  era * 146097 + doe - 719468

/-- Civil date (year, month, day) from days since the Unix epoch. -/
def civilFromDays (z : ℤ) : ℤ × ℤ × ℤ :=
  let z2 := z + 719468
  let era := z2.fdiv 146097
  let doe := z2 - era * 146097
  let yoe := (doe - doe.fdiv 1460 + doe.fdiv 36524 - doe.fdiv 146096).fdiv 365
  let y := yoe + era * 400
  let doy := doe - (365 * yoe + yoe.fdiv 4 - yoe.fdiv 100)
  let mp := (5 * doy + 2).fdiv 153
  let d := doy - (153 * mp + 2).fdiv 5 + 1
  let m := mp + (if mp < 10 then 3 else -9)
  (y + (if m ≤ 2 then 1 else 0), m, d)

/-- Two-digit zero-padded decimal rendering (arguments are in `[0, 99]`). -/
def pad2 (n : ℤ) : String := if n < 10 then "0" ++ toString n else toString n

/-- Four-digit zero-padded decimal rendering (years here are in `[1, 9999]`). -/
def pad4 (n : ℤ) : String :=
  if n < 10 then "000" ++ toString n
  else if n < 100 then "00" ++ toString n
  else if n < 1000 then "0" ++ toString n
  else toString n

/-- Seconds-precision `YYYY-MM-DDTHH:MM:SS` rendering of an epoch second. -/
def isoCore (t : ℤ) : String :=
  let days := t.fdiv 86400
  let sod := t - days * 86400
  let c := civilFromDays days
  let hh := sod.fdiv 3600
  let mi := (sod - hh * 3600).fdiv 60
  let ss := sod - hh * 3600 - mi * 60
  pad4 c.1 ++ "-" ++ pad2 c.2.1 ++ "-" ++ pad2 c.2.2 ++ "T" ++
    pad2 hh ++ ":" ++ pad2 mi ++ ":" ++ pad2 ss

/-- Models `Timestamp.isoformat()` on the tz-aware (UTC) timestamps produced by
`pd.to_datetime` on the pipeline's `+00:00` inputs. -/
def isoformatUTC (t : ℤ) : String := isoCore t ++ "+00:00"

/-- Models `datetime.fromtimestamp(run_ts / 1000).isoformat()` (naive datetime,
UTC clock, whole seconds). -/
def isoformatNaive (t : ℤ) : String := isoCore t

/-- Models `datetime.fromtimestamp(run_ts / 1000).strftime(chr(37) ++ "Y...")`,
i.e. the compact `YYYYMMDDHHMMSS` run-timestamp folder name. -/
def strftimeCompact (t : ℤ) : String :=
  let days := t.fdiv 86400
  let sod := t - days * 86400
  let c := civilFromDays days
  let hh := sod.fdiv 3600
  let mi := (sod - hh * 3600).fdiv 60
  let ss := sod - hh * 3600 - mi * 60
  pad4 c.1 ++ pad2 c.2.1 ++ pad2 c.2.2 ++ pad2 hh ++ pad2 mi ++ pad2 ss

/-- Models `pd.to_datetime` on one ISO-8601 `YYYY-MM-DDTHH:MM:SS` string with
an optional `Z` or `+00:00` zone suffix, yielding epoch seconds.  Any other
shape fails (in the source: `to_datetime` raises, failing the whole run). -/
def parseISO (s : String) : Option ℤ :=
  match s.data with
  | y1 :: y2 :: y3 :: y4 :: '-' :: mo1 :: mo2 :: '-' :: d1 :: d2 :: 'T' ::
      h1 :: h2 :: ':' :: mi1 :: mi2 :: ':' :: s1 :: s2 :: tz =>
    if ([y1, y2, y3, y4, mo1, mo2, d1, d2, h1, h2, mi1, mi2, s1, s2].all Char.isDigit
        && (tz == ([] : List Char) || tz == ['Z'] || tz == ['+', '0', '0', ':', '0', '0'])) then
      let v : Char → ℤ := fun c => (c.toNat : ℤ) - 48
      some (86400 * daysFromCivil (1000 * v y1 + 100 * v y2 + 10 * v y3 + v y4)
              (10 * v mo1 + v mo2) (10 * v d1 + v d2)
            + 3600 * (10 * v h1 + v h2) + 60 * (10 * v mi1 + v mi2)
            + (10 * v s1 + v s2))
    else none
  | _ => none

/-! ## Harmonizer data model (`src/TransformETL/__init__.py`) -/

/-- One parsed CSV line, as produced by `pd.read_csv` on the input table with
header `device_id,timestamp,item_id,qty,unit_price,store`. -/
structure RawRow where
  device_id : String
  timestamp : String
  item_id : String
  qty : ℤ
  unit_price : ℚ
  store : String
deriving DecidableEq, Repr

/-- One dataframe row after `df.timestamp = pd.to_datetime(...)` and
`df.revenue = df.qty * df.unit_price` (lines 35-36). -/
structure Row where
  device_id : String
  ts : ℤ
  item_id : String
  qty : ℤ
  unit_price : ℚ
  store : String
  revenue : ℚ
deriving DecidableEq, Repr

/-- One element of the per-device `records` list (line 57: columns
`timestamp, item_id, qty, unit_price, revenue, store`, timestamp
re-serialized to ISO-8601 by line 60). -/
structure RecordOut where
  timestamp : String
  item_id : String
  qty : ℤ
  unit_price : ℚ
  revenue : ℚ
  store : String
deriving DecidableEq, Repr

/-- The `summary` object of a harmonized record (lines 67-71). -/
structure Summary where
  total_revenue : ℚ
  total_items_sold : ℤ
  record_count : ℕ
deriving DecidableEq, Repr

/-- The harmonized per-device JSON structure (lines 63-73). -/
structure HarmonizedData where
  device_id : String
  generation_timestamp : String
  time_window : String
  summary : Summary
  records : List RecordOut
deriving DecidableEq, Repr

/-- One output artifact: a path and its content.  Line 85 serializes
`harmonized_data` once with `json.dumps` and appends the same string under
both paths, so value equality of `content` is byte equality of the
serialized artifacts. -/
structure Blob where
  path : String
  content : HarmonizedData
deriving DecidableEq, Repr

/-- Run-aborting failures of the Harmonizer. -/
inductive HarmonizeError where
  /-- `ValueError("CSV file is empty - no records to process.")` -/
  | emptyInput
  /-- `pd.to_datetime` raising on an unparseable timestamp. -/
  | timestampParseError
deriving DecidableEq, Repr

/-- Error-propagating map: the first failing element aborts (models both
column-wise `pd.to_datetime` and the artifact-building `for` loop). -/
def exceptMap {α β ε : Type} (f : α → Except ε β) : List α → Except ε (List β)
  | [] => Except.ok []
  | a :: as =>
    match f a with
    | Except.error e => Except.error e
    | Except.ok b =>
      match exceptMap f as with
      | Except.error e => Except.error e
      | Except.ok bs => Except.ok (b :: bs)

/-- Lines 35-36 applied to one row: parse the timestamp, attach the
unrounded per-row revenue `qty * unit_price`. -/
def parseRow (r : RawRow) : Except HarmonizeError Row :=
  match parseISO r.timestamp with
  | none => Except.error HarmonizeError.timestampParseError
  | some t =>
    Except.ok { device_id := r.device_id, ts := t, item_id := r.item_id,
                qty := r.qty, unit_price := r.unit_price, store := r.store,
                revenue := (r.qty : ℚ) * r.unit_price }

/-- Strict lexicographic (code-point) order on character lists: the order
Python/pandas use to sort `str` group keys. -/
def lexLtb : List Char → List Char → Bool
  | [], [] => false
  | [], _ :: _ => true
  | _ :: _, [] => false
  | a :: as, b :: bs =>
    if a.toNat < b.toNat then true
    else if b.toNat < a.toNat then false
    else lexLtb as bs

/-- Non-strict string order used by the group-key sort. -/
def strLeb (s t : String) : Bool := !(lexLtb t.data s.data)

/-- Insert a key into an already ascending key list. -/
def insertKey (d : String) : List String → List String
  | [] => [d]
  | k :: ks => if strLeb d k then d :: k :: ks else k :: insertKey d ks

/-- Ascending insertion sort of group keys. -/
def sortKeys : List String → List String
  | [] => []
  | k :: ks => insertKey k (sortKeys ks)

/-- Models line 46, `df.groupby(device_id)`: the distinct device identifiers
in ascending order (pandas `groupby` sorts group keys by default). -/
def sortedKeys (prows : List Row) : List String :=
  sortKeys ((prows.map (·.device_id)).dedup)

/-- The rows of one device group, in original row order (pandas `groupby`
preserves intra-group order). -/
def groupOf (prows : List Row) (d : String) : List Row :=
  prows.filter (fun r => r.device_id == d)

/-- Models float `.round(2)` at line 53 on the exact decimal data this
pipeline carries: scale by 100, round half-up, scale back. -/
def round2 (q : ℚ) : ℚ := ((Rat.floor (q * 100 + 1 / 2) : ℤ) : ℚ) / 100

/-- Lines 38-43: the batch-level time window over ALL rows — `min` and `max`
of the whole timestamp column, each `isoformat`ted, joined with a slash.
An empty column gives pandas `NaT`, whose `isoformat()` is the string
`"NaT"`. -/
def timeWindow (prows : List Row) : String :=
  (match prows.map (·.ts) with
   | [] => "NaT"
   | t :: ts => isoformatUTC (ts.foldl min t)) ++ "/" ++
  (match prows.map (·.ts) with
   | [] => "NaT"
   | t :: ts => isoformatUTC (ts.foldl max t))

/-- Line 57/60: one `records` entry for a row. -/
def mkRecord (r : Row) : RecordOut :=
  { timestamp := isoformatUTC r.ts, item_id := r.item_id, qty := r.qty,
    unit_price := r.unit_price, revenue := r.revenue, store := r.store }

/-- Lines 50-73: the harmonized structure for one device group. -/
def mkHarmonized (prows : List Row) (run_ts : ℤ) (d : String) : HarmonizedData :=
  let g := groupOf prows d
  { device_id := d
    generation_timestamp := isoformatNaive (run_ts.fdiv 1000)
    time_window := timeWindow prows
    summary := { total_revenue := round2 ((g.map (·.revenue)).sum)
                 total_items_sold := (g.map (·.qty)).sum
                 record_count := g.length }
    records := g.map mkRecord }

/-- Line 81: the stable per-device artifact name. -/
def latestPath (d : String) : String := "latest/device-" ++ d ++ ".json"

/-- Lines 79/82: the per-run historical artifact name. -/
def historyPath (run_ts : ℤ) (d : String) : String :=
  "by-timestamp/" ++ strftimeCompact (run_ts.fdiv 1000) ++ "/device-" ++ d ++ ".json"

/-- Lines 79-88: the two artifacts appended for one device; both carry the
same serialized content. -/
def deviceBlobs (prows : List Row) (run_ts : ℤ) (d : String) : List Blob :=
  let harmonized := mkHarmonized prows run_ts d
  [⟨latestPath d, harmonized⟩, ⟨historyPath run_ts d, harmonized⟩]

/-- Module-level `process_and_harmonize_data` (lines 29-90).  Note the
`if df.empty: raise ValueError(...)` sits INSIDE the per-group loop
(lines 74-75), after `harmonized_data` is built. -/
def process_and_harmonize_data (rows : List RawRow) (run_ts : ℤ) :
    Except HarmonizeError (List Blob) :=
  match exceptMap parseRow rows with
  | Except.error e => Except.error e
  | Except.ok prows =>
    match exceptMap
        (fun d =>
          if prows.isEmpty then Except.error HarmonizeError.emptyInput
          else Except.ok (deviceBlobs prows run_ts d))
        (sortedKeys prows) with
    | Except.error e => Except.error e
    | Except.ok blobLists => Except.ok blobLists.flatten

/-- The repaired copy nested inside `main` (lines 139-176): same
transformation, but `if df.empty: raise ValueError(...)` is checked right
after parsing, before any aggregation or grouping. -/
def main_process_and_harmonize_data (rows : List RawRow) (run_ts : ℤ) :
    Except HarmonizeError (List Blob) :=
  if rows.isEmpty then Except.error HarmonizeError.emptyInput
  else
    match exceptMap parseRow rows with
    | Except.error e => Except.error e
    | Except.ok prows =>
      Except.ok ((sortedKeys prows).flatMap (fun d => deviceBlobs prows run_ts d))

/-- The three data lines of `TEST_CSV_DATA` (lines 21-25), as parsed by
`pd.read_csv`. -/
def TEST_CSV_ROWS : List RawRow :=
  [⟨"S-101", "2025-09-15T08:00:00+00:00", "SKU-S-03", 1, 1999 / 100, "CLUJ-D"⟩,
   ⟨"S-101", "2025-09-15T08:15:00+00:00", "SKU-ACC-05", 2, 999 / 100, "CLUJ-D"⟩,
   ⟨"S-102", "2025-09-15T08:45:00+00:00", "SKU-XL-01", 2, 12999 / 100, "CLUJ-D"⟩]

/-- A concrete run timestamp (milliseconds), 2025-09-15T09:00:00Z. -/
def TS0 : ℤ := 1757926800000

/-- The artifact list of the test run (evaluated once; used by witnesses). -/
def RUN0 : List Blob :=
  match process_and_harmonize_data TEST_CSV_ROWS TS0 with
  | Except.ok bs => bs
  | Except.error _ => []

/-! ## Validator (`src/NotificationFunction/__init__.py`) -/

/-- A decoded JSON value, the candidate shape handed to the Validator. -/
inductive Json where
  | null
  | bool (b : Bool)
  | num (q : ℚ)
  | str (s : String)
  | arr (xs : List Json)
  | obj (kvs : List (String × Json))

/-- Python exceptions the Validator's dynamic operations can raise. -/
inductive PyErr where
  | typeError
  | attributeError
deriving DecidableEq, Repr

/-- Substring test on strings (Python `sub in s`). -/
def strContains (s sub : String) : Bool :=
  s.data.tails.any (fun t => sub.data.isPrefixOf t)

/-- Python `key in container` for a string key: key membership for a dict,
element membership for a list, substring test for a str; `TypeError` for
null, bool and numbers. -/
def pyContains (container : Json) (key : String) : Except PyErr Bool :=
  match container with
  | Json.obj kvs => Except.ok (kvs.any (fun kv => kv.1 == key))
  | Json.arr xs =>
    Except.ok (xs.any (fun j => match j with | Json.str t => t == key | _ => false))
  | Json.str s => Except.ok (strContains s key)
  | _ => Except.error PyErr.typeError

/-- Python `container.get(key, default)`: only dicts have `.get`, anything
else raises `AttributeError`. -/
def pyGet (container : Json) (key : String) (default : Json) : Except PyErr Json :=
  match container with
  | Json.obj kvs => Except.ok ((kvs.find? (fun kv => kv.1 == key)).elim default (fun kv => kv.2))
  | _ => Except.error PyErr.attributeError

/-- Python `v <= 0`: numbers compare numerically, bools compare as 0/1,
anything else raises `TypeError`. -/
def pyLeZero (v : Json) : Except PyErr Bool :=
  match v with
  | Json.num q => Except.ok (decide (q ≤ 0))
  | Json.bool b => Except.ok (b == false)
  | _ => Except.error PyErr.typeError

/-- Line 18: the five core keys. -/
def required_keys : List String :=
  ["device_id", "generation_timestamp", "time_window", "summary", "records"]

/-- Verdict of `validate_harmonized_schema`, labelling each `return False`
site by the reason its log line reports (lines 15-16, 19-21, 25-27, 29-31). -/
inductive Verdict where
  /-- line 15: `not isinstance(data, dict)` -/
  | notAnObject
  /-- line 19: `Missing core keys.` -/
  | missingCoreKeys
  /-- line 25: missing `total_revenue` or `record_count` in summary -/
  | missingSummaryKeys
  /-- line 29: `Zero revenue or records found` -/
  | zeroActivity
  /-- line 33: `return True` -/
  | valid
deriving DecidableEq, Repr

/-- Lines 14-33 of `NotificationFunction/__init__.py`, with each return site
labelled; Python's dynamic failures surface as `Except.error`. -/
def validateVerdict (data : Json) : Except PyErr Verdict :=
  match data with
  | Json.obj kvs =>
    if required_keys.all (fun key => kvs.any (fun kv => kv.1 == key)) then
      -- line 23: summary = data.get("summary", {})
      let summary := (kvs.find? (fun kv => kv.1 == "summary")).elim (Json.obj []) (fun kv => kv.2)
      -- line 25: "total_revenue" not in summary or "record_count" not in summary
      match pyContains summary "total_revenue" with
      | Except.error e => Except.error e
      | Except.ok hasTR =>
        if !hasTR then Except.ok Verdict.missingSummaryKeys
        else
          match pyContains summary "record_count" with
          | Except.error e => Except.error e
          | Except.ok hasRC =>
            if !hasRC then Except.ok Verdict.missingSummaryKeys
            else
              -- line 29: summary.get("record_count", 0) <= 0 or
              --          summary.get("total_revenue", 0) <= 0
              match pyGet summary "record_count" (Json.num 0) with
              | Except.error e => Except.error e
              | Except.ok rcVal =>
                match pyLeZero rcVal with
                | Except.error e => Except.error e
                | Except.ok rcLe =>
                  if rcLe then Except.ok Verdict.zeroActivity
                  else
                    match pyGet summary "total_revenue" (Json.num 0) with
                    | Except.error e => Except.error e
                    | Except.ok trVal =>
                      match pyLeZero trVal with
                      | Except.error e => Except.error e
                      | Except.ok trLe =>
                        if trLe then Except.ok Verdict.zeroActivity
                        else Except.ok Verdict.valid
    else Except.ok Verdict.missingCoreKeys
  | _ => Except.ok Verdict.notAnObject

/-- The boolean the source function actually returns: `True` exactly at the
`return True` site, `False` at every labelled `return False` site. -/
def validate_harmonized_schema (data : Json) : Except PyErr Bool :=
  match validateVerdict data with
  | Except.error e => Except.error e
  | Except.ok v => Except.ok (v == Verdict.valid)

/-! ## Event filter (`NotificationFunction.main`, lines 59-61) -/

/-- Python `s.endswith(suffix)`. -/
def pyEndsWith (s suffix : String) : Bool := suffix.data.isSuffixOf s.data

/-- Line 59: `if not url or "latest/" not in url or not url.endswith(".json"):
return` — the event is routed to validation iff the url is present,
non-empty, CONTAINS `latest/` and ends with `.json`. -/
def routesToValidator (url : Option String) : Bool :=
  match url with
  | none => false
  | some u => !(u == "") && strContains u "latest/" && pyEndsWith u ".json"

/-- The spec's notion "begins with `latest/`" (§6), for comparison with the
source's substring test. -/
def specBeginsWith (s pre : String) : Bool := pre.data.isPrefixOf s.data

/-! ## Infrastructure lemmas -/

theorem exceptMap_nil {α β ε : Type} (f : α → Except ε β) :
    exceptMap f [] = Except.ok [] := rfl

theorem exceptMap_cons {α β ε : Type} (f : α → Except ε β) (a : α) (as : List α) :
    exceptMap f (a :: as) =
      match f a with
      | Except.error e => Except.error e
      | Except.ok b =>
        match exceptMap f as with
        | Except.error e => Except.error e
        | Except.ok bs => Except.ok (b :: bs) := rfl

theorem exceptMap_ok_forall2 {α β ε : Type} {f : α → Except ε β} :
    ∀ {l : List α} {ys : List β}, exceptMap f l = Except.ok ys →
      List.Forall₂ (fun a b => f a = Except.ok b) l ys := by
  intro l
  induction l with
  | nil =>
    intro ys h
    rw [exceptMap_nil] at h
    injection h with h2
    subst h2
    exact List.Forall₂.nil
  | cons a as ih =>
    intro ys h
    rw [exceptMap_cons] at h
    cases hfa : f a with
    | error e => rw [hfa] at h; exact absurd h (by simp)
    | ok b =>
      rw [hfa] at h
      cases hrest : exceptMap f as with
      | error e => rw [hrest] at h; exact absurd h (by simp)
      | ok bs =>
        rw [hrest] at h
        simp only [] at h
        injection h with h2
        subst h2
        exact List.Forall₂.cons hfa (ih hrest)

theorem exceptMap_of_ok {α β ε : Type} {f : α → Except ε β} {g : α → β} :
    ∀ {l : List α}, (∀ a ∈ l, f a = Except.ok (g a)) →
      exceptMap f l = Except.ok (l.map g) := by
  intro l
  induction l with
  | nil => intro _; rfl
  | cons a as ih =>
    intro h
    have ha := h a (List.mem_cons_self a as)
    have has := ih (fun x hx => h x (List.mem_cons_of_mem a hx))
    rw [exceptMap_cons, ha, has]
    rfl

theorem parseRow_ok_fields {a : RawRow} {b : Row} (h : parseRow a = Except.ok b) :
    b.device_id = a.device_id ∧ b.item_id = a.item_id ∧ b.qty = a.qty ∧
    b.unit_price = a.unit_price ∧ b.store = a.store ∧
    b.revenue = (a.qty : ℚ) * a.unit_price ∧ parseISO a.timestamp = some b.ts := by
  unfold parseRow at h
  cases hp : parseISO a.timestamp with
  | none => rw [hp] at h; exact absurd h (by simp)
  | some t =>
    rw [hp] at h
    simp only [] at h
    injection h with h2
    subst h2
    exact ⟨rfl, rfl, rfl, rfl, rfl, rfl, rfl⟩

theorem process_run {rows : List RawRow} {run_ts : ℤ} {bs : List Blob}
    (h : process_and_harmonize_data rows run_ts = Except.ok bs) :
    ∃ prows, List.Forall₂ (fun a b => parseRow a = Except.ok b) rows prows ∧
      bs = (sortedKeys prows).flatMap (fun d => deviceBlobs prows run_ts d) := by
  unfold process_and_harmonize_data at h
  cases hp : exceptMap parseRow rows with
  | error e => rw [hp] at h; exact absurd h (by simp)
  | ok prows =>
    rw [hp] at h
    dsimp only at h
    refine ⟨prows, exceptMap_ok_forall2 hp, ?_⟩
    by_cases he : prows.isEmpty
    · have hpe : prows = [] := List.isEmpty_iff.mp he
      subst hpe
      have hk : sortedKeys ([] : List Row) = [] := rfl
      rw [hk] at h ⊢
      rw [exceptMap_nil] at h
      simp only [] at h
      injection h with h2
      subst h2
      rfl
    · have hmain : exceptMap
          (fun d => if prows.isEmpty then Except.error HarmonizeError.emptyInput
                    else Except.ok (deviceBlobs prows run_ts d))
          (sortedKeys prows)
          = Except.ok ((sortedKeys prows).map (fun d => deviceBlobs prows run_ts d)) :=
        exceptMap_of_ok (fun d _ => by simp [he])
    -- feed the evaluated inner loop back into h
      rw [hmain] at h
      simp only [] at h
      injection h with h2
      subst h2
      exact (List.flatMap_def _ _).symm

theorem mkHarmonized_device_id (p : List Row) (ts : ℤ) (d : String) :
    (mkHarmonized p ts d).device_id = d := rfl

theorem mkHarmonized_time_window (p : List Row) (ts : ℤ) (d : String) :
    (mkHarmonized p ts d).time_window = timeWindow p := rfl

theorem mkHarmonized_total_revenue (p : List Row) (ts : ℤ) (d : String) :
    (mkHarmonized p ts d).summary.total_revenue
      = round2 (((groupOf p d).map (·.revenue)).sum) := rfl

theorem mkHarmonized_total_items (p : List Row) (ts : ℤ) (d : String) :
    (mkHarmonized p ts d).summary.total_items_sold = ((groupOf p d).map (·.qty)).sum := rfl

theorem mkHarmonized_record_count (p : List Row) (ts : ℤ) (d : String) :
    (mkHarmonized p ts d).summary.record_count = (groupOf p d).length := rfl

theorem mkHarmonized_records (p : List Row) (ts : ℤ) (d : String) :
    (mkHarmonized p ts d).records = (groupOf p d).map mkRecord := rfl

theorem mem_deviceBlobs_content {b : Blob} {p : List Row} {ts : ℤ} {d : String}
    (h : b ∈ deviceBlobs p ts d) : b.content = mkHarmonized p ts d := by
  unfold deviceBlobs at h
  rcases List.mem_cons.mp h with h1 | h1
  · subst h1; rfl
  · rcases List.mem_cons.mp h1 with h2 | h2
    · subst h2; rfl
    · cases h2

theorem mem_process_content {run_ts : ℤ} {bs : List Blob}
    {prows : List Row} {b : Blob}
    (hbs : bs = (sortedKeys prows).flatMap (fun d => deviceBlobs prows run_ts d))
    (hb : b ∈ bs) :
    ∃ d ∈ sortedKeys prows, b.content = mkHarmonized prows run_ts d := by
  subst hbs
  rcases List.mem_flatMap.mp hb with ⟨d, hd, hbd⟩
  exact ⟨d, hd, mem_deviceBlobs_content hbd⟩

theorem forall2_mem_right {α β : Type} {R : α → β → Prop} {l1 : List α} {l2 : List β}
    (h : List.Forall₂ R l1 l2) : ∀ {b}, b ∈ l2 → ∃ a ∈ l1, R a b := by
  induction h with
  | nil => intro b hb; cases hb
  | cons hab htail ih =>
    intro b hb
    rcases List.mem_cons.mp hb with h1 | h1
    · subst h1; exact ⟨_, List.mem_cons_self _ _, hab⟩
    · rcases ih h1 with ⟨a, ha, hr⟩
      exact ⟨a, List.mem_cons_of_mem _ ha, hr⟩

theorem forall2_devices {rows : List RawRow} {prows : List Row}
    (h : List.Forall₂ (fun a b => parseRow a = Except.ok b) rows prows) :
    prows.map (·.device_id) = rows.map (·.device_id) := by
  induction h with
  | nil => rfl
  | cons hab _ ih => simp [ih, (parseRow_ok_fields hab).1]

theorem forall2_filter_device {rows : List RawRow} {prows : List Row}
    (h : List.Forall₂ (fun a b => parseRow a = Except.ok b) rows prows) (d : String) :
    List.Forall₂ (fun a b => parseRow a = Except.ok b)
      (rows.filter (fun r => r.device_id == d)) (groupOf prows d) := by
  unfold groupOf
  induction h with
  | nil => exact List.Forall₂.nil
  | @cons a b as bs hab htail ih =>
    have hdev : b.device_id = a.device_id := (parseRow_ok_fields hab).1
    cases hd : (a.device_id == d) with
    | false => simpa [List.filter_cons, hdev, hd] using ih
    | true =>
      simp only [List.filter_cons, hdev, hd]
      exact List.Forall₂.cons hab ih

theorem forall2_revenue_sum {l1 : List RawRow} {l2 : List Row}
    (h : List.Forall₂ (fun a b => parseRow a = Except.ok b) l1 l2) :
    (l2.map (·.revenue)).sum
      = (l1.map (fun r => (r.qty : ℚ) * r.unit_price)).sum := by
  induction h with
  | nil => rfl
  | cons hab _ ih => simp [ih, (parseRow_ok_fields hab).2.2.2.2.2.1]

/-! ## Order lemmas for the group-key sort -/

theorem lexLtb_asymm : ∀ {a b : List Char}, lexLtb a b = true → lexLtb b a = false := by
  intro a
  induction a with
  | nil =>
    intro b h
    cases b with
    | nil => simp [lexLtb] at h
    | cons y ys => simp [lexLtb]
  | cons x xs ih =>
    intro b h
    cases b with
    | nil => simp [lexLtb] at h
    | cons y ys =>
      simp only [lexLtb] at h ⊢
      by_cases h1 : x.toNat < y.toNat
      · have h2 : ¬ y.toNat < x.toNat := by omega
        simp [h1, h2]
      · by_cases h2 : y.toNat < x.toNat
        · simp [h1, h2] at h
        · simp only [h1, h2, if_false] at h ⊢
          exact ih h

theorem lexLtb_connex :
    ∀ {a b : List Char}, lexLtb a b = false → lexLtb b a = false → a = b := by
  intro a
  induction a with
  | nil =>
    intro b h1 _
    cases b with
    | nil => rfl
    | cons y ys => simp [lexLtb] at h1
  | cons x xs ih =>
    intro b h1 h2
    cases b with
    | nil => simp [lexLtb] at h2
    | cons y ys =>
      simp only [lexLtb] at h1 h2
      by_cases hxy : x.toNat < y.toNat
      · simp [hxy] at h1
      · by_cases hyx : y.toNat < x.toNat
        · simp [hyx] at h2
        · simp only [hxy, hyx, if_false] at h1 h2
          have hc : x = y := by
            have h3 : x.toNat = y.toNat := by omega
            have h4 := congrArg Char.ofNat h3
            rwa [Char.ofNat_toNat, Char.ofNat_toNat] at h4
          rw [hc, ih h1 h2]

theorem lexLtb_trans :
    ∀ {a b c : List Char}, lexLtb a b = true → lexLtb b c = true → lexLtb a c = true := by
  intro a
  induction a with
  | nil =>
    intro b c h1 h2
    cases b with
    | nil => simp [lexLtb] at h1
    | cons y ys =>
      cases c with
      | nil => simp [lexLtb] at h2
      | cons z zs => simp [lexLtb]
  | cons x xs ih =>
    intro b c h1 h2
    cases b with
    | nil => simp [lexLtb] at h1
    | cons y ys =>
      cases c with
      | nil => simp [lexLtb] at h2
      | cons z zs =>
        simp only [lexLtb] at h1 h2 ⊢
        by_cases hxy : x.toNat < y.toNat
        · by_cases hyz : y.toNat < z.toNat
          · simp [show x.toNat < z.toNat by omega]
          · by_cases hzy : z.toNat < y.toNat
            · simp [hyz, hzy] at h2
            · simp [show x.toNat < z.toNat by omega]
        · by_cases hyx : y.toNat < x.toNat
          · simp [hxy, hyx] at h1
          · simp only [hxy, hyx, if_false] at h1
            by_cases hyz : y.toNat < z.toNat
            · have : x.toNat < z.toNat := by omega
              simp [this]
            · by_cases hzy : z.toNat < y.toNat
              · simp [hyz, hzy] at h2
              · simp only [hyz, hzy, if_false] at h2
                have hxz1 : ¬ x.toNat < z.toNat := by omega
                have hxz2 : ¬ z.toNat < x.toNat := by omega
                simp only [hxz1, hxz2, if_false]
                exact ih h1 h2

theorem strLeb_total (s t : String) : strLeb s t = true ∨ strLeb t s = true := by
  unfold strLeb
  by_cases h : lexLtb t.data s.data = true
  · right
    have := lexLtb_asymm h
    simp [this]
  · left
    simp [Bool.not_eq_true _ ▸ h]

theorem strLeb_trans {a b c : String}
    (h1 : strLeb a b = true) (h2 : strLeb b c = true) : strLeb a c = true := by
  unfold strLeb at h1 h2 ⊢
  rw [Bool.not_eq_true'] at h1 h2 ⊢
  by_cases hca : lexLtb c.data a.data = true
  · cases hbc : lexLtb b.data c.data with
    | true => rw [lexLtb_trans hbc hca] at h1; cases h1
    | false =>
      have hbceq : b.data = c.data := lexLtb_connex hbc h2
      rw [← hbceq] at hca
      rw [hca] at h1
      cases h1
  · exact Bool.not_eq_true _ ▸ hca

theorem insertKey_perm (d : String) : ∀ l : List String, (insertKey d l).Perm (d :: l) := by
  intro l
  induction l with
  | nil => exact List.Perm.refl _
  | cons k ks ih =>
    unfold insertKey
    by_cases h : strLeb d k = true
    · simp [h]
    · simp only [h, if_false, Bool.false_eq_true]
      exact ((ih.cons k).trans (List.Perm.swap d k ks))

theorem sortKeys_perm : ∀ l : List String, (sortKeys l).Perm l := by
  intro l
  induction l with
  | nil => exact List.Perm.refl _
  | cons k ks ih => exact (insertKey_perm k (sortKeys ks)).trans (ih.cons k)

theorem insertKey_pairwise {l : List String} (d : String)
    (h : l.Pairwise (fun a b => strLeb a b = true)) :
    (insertKey d l).Pairwise (fun a b => strLeb a b = true) := by
  induction l with
  | nil => simp [insertKey]
  | cons k ks ih =>
    rcases List.pairwise_cons.mp h with ⟨hk, hks⟩
    unfold insertKey
    by_cases hd : strLeb d k = true
    · rw [if_pos hd]
      refine List.pairwise_cons.mpr ⟨?_, h⟩
      intro x hx
      rcases List.mem_cons.mp hx with rfl | hx2
      · exact hd
      · exact strLeb_trans hd (hk x hx2)
    · have hkd : strLeb k d = true := by
        rcases strLeb_total d k with h1 | h1
        · exact absurd h1 hd
        · exact h1
      simp only [hd, if_false, Bool.false_eq_true]
      refine List.pairwise_cons.mpr ⟨?_, ih hks⟩
      intro x hx
      rcases (insertKey_perm d ks).mem_iff.mp hx with h2
      rcases List.mem_cons.mp h2 with rfl | h3
      · exact hkd
      · exact hk x h3

theorem sortKeys_pairwise : ∀ l : List String,
    (sortKeys l).Pairwise (fun a b => strLeb a b = true) := by
  intro l
  induction l with
  | nil => exact List.Pairwise.nil
  | cons k ks ih => exact insertKey_pairwise k ih

theorem sortKeys_pairwise_lt {l : List String} (hnd : l.Nodup) :
    (sortKeys l).Pairwise (fun a b => lexLtb a.data b.data = true) := by
  have hp := sortKeys_pairwise l
  have hnd2 : (sortKeys l).Nodup := ((sortKeys_perm l).nodup_iff).mpr hnd
  have hcomb := List.Pairwise.and hp hnd2
  refine hcomb.imp ?_
  rintro a b ⟨hab, hne⟩
  cases hlt : lexLtb a.data b.data with
  | true => rfl
  | false =>
    exfalso
    apply hne
    apply String.ext
    unfold strLeb at hab
    rw [Bool.not_eq_true'] at hab
    exact lexLtb_connex hlt hab

theorem filter_flatMap_unique {keys : List String} {f : String → List Blob} {d : String}
    (hf : ∀ k, ∀ b ∈ f k, b.content.device_id = k)
    (hnd : keys.Nodup) (hd : d ∈ keys) :
    (keys.flatMap f).filter (fun b => b.content.device_id == d) = f d := by
  induction keys with
  | nil => cases hd
  | cons k ks ih =>
    rcases List.nodup_cons.mp hnd with ⟨hk, hks⟩
    rw [List.flatMap_cons, List.filter_append]
    rcases List.mem_cons.mp hd with rfl | hd2
    · have h1 : (f d).filter (fun b => b.content.device_id == d) = f d :=
        List.filter_eq_self.mpr (fun b hb => by simp [hf d b hb])
      have h2 : (ks.flatMap f).filter (fun b => b.content.device_id == d) = [] := by
        refine List.filter_eq_nil_iff.mpr ?_
        intro b hb
        rcases List.mem_flatMap.mp hb with ⟨k2, hk2, hbk2⟩
        have := hf k2 b hbk2
        simp only [this]
        intro heq
        exact hk ((beq_iff_eq.mp heq) ▸ hk2)
      rw [h1, h2, List.append_nil]
    · have hne : k ≠ d := fun he => hk (he ▸ hd2)
      have h1 : (f k).filter (fun b => b.content.device_id == d) = [] := by
        refine List.filter_eq_nil_iff.mpr ?_
        intro b hb
        have := hf k b hb
        simp only [this]
        intro h
        exact hne (beq_iff_eq.mp h)
      rw [h1, List.nil_append]
      exact ih hks hd2

/-! ## Claim theorems -/

/-- C1: the spec requires a header-only (zero-row) input to fail with
`EmptyInput` before any aggregation, never a silently empty success.  The
module-level `process_and_harmonize_data` violates this: its `df.empty`
check sits inside the per-group loop, which never runs for zero rows, so
the run returns an empty artifact list with no error.  The repaired copy
nested in `main` (whose own comment says to validate before the loop)
raises `EmptyInput` first, showing the intended behaviour. -/
theorem C1_empty_input_behaviour :
    process_and_harmonize_data [] TS0 = Except.ok [] ∧
    process_and_harmonize_data [] TS0 ≠ Except.error HarmonizeError.emptyInput ∧
    main_process_and_harmonize_data [] TS0 = Except.error HarmonizeError.emptyInput := by
  refine ⟨rfl, ?_, rfl⟩
  intro hcontra
  cases hcontra

/-- C2: in every successful run, each emitted device summary's
`total_revenue` is the 2-decimal rounding of the sum of `qty * unit_price`
over that device's input rows; the per-row `revenue` values in `records`
are the unrounded products; and `total_revenue` is unchanged under any
permutation of the input rows. -/
theorem C2_total_revenue_invariant (rows rows2 : List RawRow) (ts ts2 : ℤ)
    (bs bs2 : List Blob)
    (h : process_and_harmonize_data rows ts = Except.ok bs) :
    (∀ b ∈ bs,
        b.content.summary.total_revenue
          = round2 (((rows.filter (fun r => r.device_id == b.content.device_id)).map
              (fun r => (r.qty : ℚ) * r.unit_price)).sum) ∧
        ∀ rec ∈ b.content.records, rec.revenue = (rec.qty : ℚ) * rec.unit_price) ∧
    (rows.Perm rows2 → process_and_harmonize_data rows2 ts2 = Except.ok bs2 →
      ∀ b ∈ bs, ∀ b2 ∈ bs2, b.content.device_id = b2.content.device_id →
        b.content.summary.total_revenue = b2.content.summary.total_revenue) := by
  have main : ∀ {rs : List RawRow} {t : ℤ} {cs : List Blob},
      process_and_harmonize_data rs t = Except.ok cs → ∀ b ∈ cs,
      b.content.summary.total_revenue
        = round2 (((rs.filter (fun r => r.device_id == b.content.device_id)).map
            (fun r => (r.qty : ℚ) * r.unit_price)).sum) ∧
      ∀ rec ∈ b.content.records, rec.revenue = (rec.qty : ℚ) * rec.unit_price := by
    intro rs t cs hok b hb
    rcases process_run hok with ⟨prows, hf, hbs⟩
    rcases mem_process_content hbs hb with ⟨d, _, hc⟩
    rw [hc]
    constructor
    · rw [mkHarmonized_total_revenue, mkHarmonized_device_id]
      congr 1
      exact forall2_revenue_sum (forall2_filter_device hf d)
    · rw [mkHarmonized_records]
      intro rec hrec
      rcases List.mem_map.mp hrec with ⟨r, hr, hrrec⟩
      have hrp : r ∈ prows := List.mem_of_mem_filter hr
      rcases forall2_mem_right hf hrp with ⟨a, _, ha⟩
      rcases parseRow_ok_fields ha with ⟨_, _, hq, hup, _, hrev, _⟩
      subst hrrec
      show r.revenue = (r.qty : ℚ) * r.unit_price
      rw [hrev, hq, hup]
  refine ⟨fun b hb => main h b hb, ?_⟩
  intro hperm h2 b hb b2 hb2 hdev
  have e1 := (main h b hb).1
  have e2 := (main h2 b2 hb2).1
  rw [e1, e2, ← hdev]
  congr 1
  exact ((hperm.filter _).map _).sum_eq

/-- Witness for C2 at the hard-coded test batch. -/
theorem C2_witness :
    (∀ b ∈ RUN0,
        b.content.summary.total_revenue
          = round2 (((TEST_CSV_ROWS.filter
              (fun r => r.device_id == b.content.device_id)).map
              (fun r => (r.qty : ℚ) * r.unit_price)).sum) ∧
        ∀ rec ∈ b.content.records, rec.revenue = (rec.qty : ℚ) * rec.unit_price) ∧
    (TEST_CSV_ROWS.Perm TEST_CSV_ROWS →
      process_and_harmonize_data TEST_CSV_ROWS TS0 = Except.ok RUN0 →
      ∀ b ∈ RUN0, ∀ b2 ∈ RUN0, b.content.device_id = b2.content.device_id →
        b.content.summary.total_revenue = b2.content.summary.total_revenue) :=
  C2_total_revenue_invariant TEST_CSV_ROWS TEST_CSV_ROWS TS0 TS0 RUN0 RUN0 rfl

/-- C5: in every successful run, each emitted summary's `record_count`
equals the length of its `records` list and `total_items_sold` equals the
sum of the `qty` values of those records. -/
theorem C5_count_and_items_invariant (rows : List RawRow) (run_ts : ℤ) (bs : List Blob)
    (h : process_and_harmonize_data rows run_ts = Except.ok bs) :
    ∀ b ∈ bs, b.content.summary.record_count = b.content.records.length ∧
      b.content.summary.total_items_sold = (b.content.records.map (·.qty)).sum := by
  intro b hb
  rcases process_run h with ⟨prows, _, hbs⟩
  rcases mem_process_content hbs hb with ⟨d, _, hc⟩
  rw [hc]
  constructor
  · rw [mkHarmonized_record_count, mkHarmonized_records, List.length_map]
  · rw [mkHarmonized_total_items, mkHarmonized_records, List.map_map]
    rfl

/-- Witness for C5 at the hard-coded test batch. -/
theorem C5_witness :
    RUN0.length = 4 ∧
    ∀ b ∈ RUN0, b.content.summary.record_count = b.content.records.length ∧
      b.content.summary.total_items_sold = (b.content.records.map (·.qty)).sum :=
  ⟨rfl, C5_count_and_items_invariant TEST_CSV_ROWS TS0 RUN0 rfl⟩

theorem foldl_min_mem : ∀ (l : List ℤ) (t : ℤ), l.foldl min t ∈ t :: l := by
  intro l
  induction l with
  | nil => intro t; exact List.mem_singleton.mpr rfl
  | cons y ys ih =>
    intro t
    rw [List.foldl_cons]
    rcases List.mem_cons.mp (ih (min t y)) with h1 | h1
    · rcases min_choice t y with h2 | h2
      · rw [h1, h2]; exact List.mem_cons_self _ _
      · rw [h1, h2]; exact List.mem_cons_of_mem _ (List.mem_cons_self _ _)
    · exact List.mem_cons_of_mem _ (List.mem_cons_of_mem _ h1)

theorem foldl_min_le : ∀ (l : List ℤ) (t : ℤ), ∀ x ∈ t :: l, l.foldl min t ≤ x := by
  intro l
  induction l with
  | nil =>
    intro t x hx
    rcases List.mem_singleton.mp hx with rfl
    exact le_refl _
  | cons y ys ih =>
    intro t x hx
    rw [List.foldl_cons]
    rcases List.mem_cons.mp hx with rfl | hx2
    · exact le_trans (ih _ _ (List.mem_cons_self _ _)) (min_le_left _ _)
    · rcases List.mem_cons.mp hx2 with rfl | hx3
      · exact le_trans (ih _ _ (List.mem_cons_self _ _)) (min_le_right _ _)
      · exact ih (min t y) x (List.mem_cons_of_mem _ hx3)

theorem foldl_max_mem : ∀ (l : List ℤ) (t : ℤ), l.foldl max t ∈ t :: l := by
  intro l
  induction l with
  | nil => intro t; exact List.mem_singleton.mpr rfl
  | cons y ys ih =>
    intro t
    rw [List.foldl_cons]
    rcases List.mem_cons.mp (ih (max t y)) with h1 | h1
    · rcases max_choice t y with h2 | h2
      · rw [h1, h2]; exact List.mem_cons_self _ _
      · rw [h1, h2]; exact List.mem_cons_of_mem _ (List.mem_cons_self _ _)
    · exact List.mem_cons_of_mem _ (List.mem_cons_of_mem _ h1)

theorem foldl_max_ge : ∀ (l : List ℤ) (t : ℤ), ∀ x ∈ t :: l, x ≤ l.foldl max t := by
  intro l
  induction l with
  | nil =>
    intro t x hx
    rcases List.mem_singleton.mp hx with rfl
    exact le_refl _
  | cons y ys ih =>
    intro t x hx
    rw [List.foldl_cons]
    rcases List.mem_cons.mp hx with rfl | hx2
    · exact le_trans (le_max_left _ _) (ih (max x y) (max x y) (List.mem_cons_self _ _))
    · rcases List.mem_cons.mp hx2 with rfl | hx3
      · exact le_trans (le_max_right _ _) (ih (max t x) (max t x) (List.mem_cons_self _ _))
      · exact ih (max t y) x (List.mem_cons_of_mem _ hx3)

theorem mem_sortedKeys_nonempty {prows : List Row} {d : String}
    (hd : d ∈ sortedKeys prows) : prows ≠ [] := by
  intro hpe
  subst hpe
  cases hd

/-- C3: in every successful run, every emitted record carries the identical
`time_window` string, equal to the ISO-8601 rendering of the minimum and
maximum timestamp over ALL rows of the batch joined with a slash — a
batch-level value, not a per-device one. -/
theorem C3_batch_time_window (rows : List RawRow) (ts : ℤ) (bs : List Blob)
    (h : process_and_harmonize_data rows ts = Except.ok bs) :
    (∀ b ∈ bs, ∀ b2 ∈ bs, b.content.time_window = b2.content.time_window) ∧
    (∀ b ∈ bs, ∃ prows tmin tmax,
      List.Forall₂ (fun a p => parseRow a = Except.ok p) rows prows ∧
      tmin ∈ prows.map (·.ts) ∧ (∀ x ∈ prows.map (·.ts), tmin ≤ x) ∧
      tmax ∈ prows.map (·.ts) ∧ (∀ x ∈ prows.map (·.ts), x ≤ tmax) ∧
      b.content.time_window = isoformatUTC tmin ++ "/" ++ isoformatUTC tmax) := by
  rcases process_run h with ⟨prows, hf, hbs⟩
  constructor
  · intro b hb b2 hb2
    rcases mem_process_content hbs hb with ⟨d, _, hc⟩
    rcases mem_process_content hbs hb2 with ⟨d2, _, hc2⟩
    rw [hc, hc2, mkHarmonized_time_window, mkHarmonized_time_window]
  · intro b hb
    rcases mem_process_content hbs hb with ⟨d, hd, hc⟩
    have hne : prows ≠ [] := mem_sortedKeys_nonempty hd
    cases hp : prows with
    | nil => exact absurd hp hne
    | cons p pr =>
      subst hp
      refine ⟨p :: pr, (pr.map (·.ts)).foldl min p.ts, (pr.map (·.ts)).foldl max p.ts,
        hf, ?_, ?_, ?_, ?_, ?_⟩
      · exact foldl_min_mem (pr.map (·.ts)) p.ts
      · exact foldl_min_le (pr.map (·.ts)) p.ts
      · exact foldl_max_mem (pr.map (·.ts)) p.ts
      · exact foldl_max_ge (pr.map (·.ts)) p.ts
      · rw [hc, mkHarmonized_time_window]
        rfl

/-- Witness for C3 at the hard-coded test batch. -/
theorem C3_witness :
    (∀ b ∈ RUN0, ∀ b2 ∈ RUN0, b.content.time_window = b2.content.time_window) ∧
    (∀ b ∈ RUN0, ∃ prows tmin tmax,
      List.Forall₂ (fun a p => parseRow a = Except.ok p) TEST_CSV_ROWS prows ∧
      tmin ∈ prows.map (·.ts) ∧ (∀ x ∈ prows.map (·.ts), tmin ≤ x) ∧
      tmax ∈ prows.map (·.ts) ∧ (∀ x ∈ prows.map (·.ts), x ≤ tmax) ∧
      b.content.time_window = isoformatUTC tmin ++ "/" ++ isoformatUTC tmax) :=
  C3_batch_time_window TEST_CSV_ROWS TS0 RUN0 rfl

/-- C4: for every device appearing in a successful run, exactly two
artifacts are emitted for it — the stable `latest/device-<id>.json` name
and the per-run `by-timestamp/<YYYYMMDDHHMMSS>/device-<id>.json` name —
and both carry identical serialized content. -/
theorem C4_dual_write (rows : List RawRow) (run_ts : ℤ) (bs : List Blob) (d : String)
    (h : process_and_harmonize_data rows run_ts = Except.ok bs)
    (hd : d ∈ rows.map (·.device_id)) :
    ∃ c, bs.filter (fun b => b.content.device_id == d)
        = [⟨"latest/device-" ++ d ++ ".json", c⟩,
           ⟨"by-timestamp/" ++ strftimeCompact (run_ts.fdiv 1000) ++ "/device-"
              ++ d ++ ".json", c⟩] := by
  rcases process_run h with ⟨prows, hf, hbs⟩
  subst hbs
  have hdp : d ∈ prows.map (·.device_id) := by rw [forall2_devices hf]; exact hd
  have hdk : d ∈ sortedKeys prows :=
    ((sortKeys_perm _).mem_iff).mpr (List.mem_dedup.mpr hdp)
  have hnd : (sortedKeys prows).Nodup :=
    ((sortKeys_perm _).nodup_iff).mpr (List.nodup_dedup _)
  refine ⟨mkHarmonized prows run_ts d, ?_⟩
  rw [filter_flatMap_unique
    (fun k b hb => by rw [mem_deviceBlobs_content hb, mkHarmonized_device_id])
    hnd hdk]
  rfl

/-- Witness for C4 at the hard-coded test batch. -/
theorem C4_witness :
    ∃ c, RUN0.filter (fun b => b.content.device_id == "S-101")
        = [⟨"latest/device-" ++ "S-101" ++ ".json", c⟩,
           ⟨"by-timestamp/" ++ strftimeCompact (TS0.fdiv 1000) ++ "/device-"
              ++ "S-101" ++ ".json", c⟩] :=
  C4_dual_write TEST_CSV_ROWS TS0 RUN0 "S-101" rfl (by decide)

theorem length_flatMap_pairs {β : Type} (f g : String → β) :
    ∀ ds : List String, (ds.flatMap (fun d => [f d, g d])).length = 2 * ds.length := by
  intro ds
  induction ds with
  | nil => rfl
  | cons d ds ih =>
    rw [List.flatMap_cons, List.length_append, ih]
    simp only [List.length_cons, List.length_nil]
    omega

/-- C10: every successful run over a non-empty input returns exactly two
entries per distinct device, laid out as the device groups in ascending
(code-point lexicographic) `device_id` order with, for each device, the
`latest/` artifact immediately followed by the `by-timestamp/` artifact. -/
theorem C10_output_shape (rows : List RawRow) (run_ts : ℤ) (bs : List Blob)
    (h : process_and_harmonize_data rows run_ts = Except.ok bs)
    (_hne : rows ≠ []) :
    bs.length = 2 * ((rows.map (·.device_id)).dedup).length ∧
    ∃ ds : List String, ds.Pairwise (fun a b => lexLtb a.data b.data = true) ∧
      ds.Perm ((rows.map (·.device_id)).dedup) ∧
      ∃ f : String → HarmonizedData,
        bs = ds.flatMap (fun d => [⟨latestPath d, f d⟩, ⟨historyPath run_ts d, f d⟩]) := by
  rcases process_run h with ⟨prows, hf, hbs⟩
  have hdev : prows.map (·.device_id) = rows.map (·.device_id) := forall2_devices hf
  constructor
  · subst hbs
    rw [← hdev]
    have hlen := length_flatMap_pairs
      (fun d => (⟨latestPath d, mkHarmonized prows run_ts d⟩ : Blob))
      (fun d => (⟨historyPath run_ts d, mkHarmonized prows run_ts d⟩ : Blob))
      (sortedKeys prows)
    have hsk : (sortedKeys prows).length = ((prows.map (·.device_id)).dedup).length :=
      (sortKeys_perm _).length_eq
    rw [← hsk]
    exact hlen
  · refine ⟨sortedKeys prows, sortKeys_pairwise_lt (List.nodup_dedup _), ?_, ?_⟩
    · rw [← hdev]; exact sortKeys_perm _
    · exact ⟨mkHarmonized prows run_ts, hbs⟩

/-- Witness for C10 at the hard-coded test batch. -/
theorem C10_witness :
    RUN0.length = 2 * ((TEST_CSV_ROWS.map (·.device_id)).dedup).length ∧
    ∃ ds : List String, ds.Pairwise (fun a b => lexLtb a.data b.data = true) ∧
      ds.Perm ((TEST_CSV_ROWS.map (·.device_id)).dedup) ∧
      ∃ f : String → HarmonizedData,
        RUN0 = ds.flatMap (fun d => [⟨latestPath d, f d⟩, ⟨historyPath TS0 d, f d⟩]) :=
  C10_output_shape TEST_CSV_ROWS TS0 RUN0 rfl (by decide)

/-- C9: on the hard-coded three-row test batch, the Harmonizer produces
exactly two device groups: S-101 with total_revenue 39.97, 3 items sold and
2 records; S-102 with total_revenue 259.98, 2 items sold and 1 record; and
every record carries the batch time window
`2025-09-15T08:00:00+00:00/2025-09-15T08:45:00+00:00` — for any run
timestamp. -/
theorem C9_end_to_end_example (run_ts : ℤ) :
    ∃ bs, process_and_harmonize_data TEST_CSV_ROWS run_ts = Except.ok bs ∧
      bs.map (fun b => (b.content.device_id, b.content.summary.total_revenue,
        b.content.summary.total_items_sold, b.content.summary.record_count,
        b.content.time_window)) =
      [("S-101", 3997 / 100, 3, 2,
        "2025-09-15T08:00:00+00:00/2025-09-15T08:45:00+00:00"),
       ("S-101", 3997 / 100, 3, 2,
        "2025-09-15T08:00:00+00:00/2025-09-15T08:45:00+00:00"),
       ("S-102", 25998 / 100, 2, 1,
        "2025-09-15T08:00:00+00:00/2025-09-15T08:45:00+00:00"),
       ("S-102", 25998 / 100, 2, 1,
        "2025-09-15T08:00:00+00:00/2025-09-15T08:45:00+00:00")] := by
  refine ⟨_, rfl, ?_⟩
  with_unfolding_all rfl

/-- C6: for a candidate object holding all five core keys whose summary is
an object with numeric `total_revenue` and `record_count`, the Validator
reports the zero-activity failure exactly when `record_count <= 0` or
`total_revenue <= 0`, and reports valid exactly when both are strictly
positive. -/
theorem C6_zero_activity_rule (kvs skvs : List (String × Json)) (rc tr : ℚ)
    (hkeys : required_keys.all (fun key => kvs.any (fun kv => kv.1 == key)) = true)
    (hsum : kvs.find? (fun kv => kv.1 == "summary") = some ("summary", Json.obj skvs))
    (hrc : skvs.find? (fun kv => kv.1 == "record_count")
        = some ("record_count", Json.num rc))
    (htr : skvs.find? (fun kv => kv.1 == "total_revenue")
        = some ("total_revenue", Json.num tr)) :
    (validateVerdict (Json.obj kvs) = Except.ok Verdict.zeroActivity ↔ rc ≤ 0 ∨ tr ≤ 0) ∧
    (validateVerdict (Json.obj kvs) = Except.ok Verdict.valid ↔ 0 < rc ∧ 0 < tr) ∧
    (validate_harmonized_schema (Json.obj kvs) = Except.ok true ↔ 0 < rc ∧ 0 < tr) ∧
    (validate_harmonized_schema (Json.obj kvs) = Except.ok false ↔ rc ≤ 0 ∨ tr ≤ 0) := by
  have hTR : skvs.any (fun kv => kv.1 == "total_revenue") = true :=
    List.any_eq_true.mpr ⟨_, List.mem_of_find?_eq_some htr, by simp⟩
  have hRC : skvs.any (fun kv => kv.1 == "record_count") = true :=
    List.any_eq_true.mpr ⟨_, List.mem_of_find?_eq_some hrc, by simp⟩
  have hstep : validateVerdict (Json.obj kvs) =
      (if rc ≤ 0 then Except.ok Verdict.zeroActivity
       else if tr ≤ 0 then Except.ok Verdict.zeroActivity
       else Except.ok Verdict.valid) := by
    simp only [validateVerdict, hkeys, if_true, hsum, Option.elim, pyContains, hTR, hRC,
      Bool.not_true, Bool.false_eq_true, if_false, pyGet, hrc, htr, pyLeZero,
      decide_eq_true_eq]
  have hbool : validate_harmonized_schema (Json.obj kvs) =
      (if rc ≤ 0 then Except.ok false
       else if tr ≤ 0 then Except.ok false
       else Except.ok true) := by
    unfold validate_harmonized_schema
    rw [hstep]
    by_cases h1 : rc ≤ 0
    · simp [h1]
    · by_cases h2 : tr ≤ 0
      · simp [h1, h2]
      · simp [h1, h2]
  by_cases h1 : rc ≤ 0
  · rw [hstep, hbool]
    simp [h1]
  · by_cases h2 : tr ≤ 0
    · rw [hstep, hbool]
      simp [h1, h2]
    · rw [hstep, hbool]
      simp [h1, h2, lt_of_not_ge h1, lt_of_not_ge h2]

/-- Witness for C6: a structurally complete candidate with zero
`record_count` is zero-activity-invalid; the checks evaluate concretely. -/
theorem C6_witness :
    (validateVerdict (Json.obj
        [("device_id", Json.str "S-101"), ("generation_timestamp", Json.str "g"),
         ("time_window", Json.str "w"),
         ("summary", Json.obj [("total_revenue", Json.num (25998 / 100)),
                               ("record_count", Json.num 0)]),
         ("records", Json.arr [])])
      = Except.ok Verdict.zeroActivity ↔ (0 : ℚ) ≤ 0 ∨ (25998 / 100 : ℚ) ≤ 0) ∧
    (validateVerdict (Json.obj
        [("device_id", Json.str "S-101"), ("generation_timestamp", Json.str "g"),
         ("time_window", Json.str "w"),
         ("summary", Json.obj [("total_revenue", Json.num (25998 / 100)),
                               ("record_count", Json.num 0)]),
         ("records", Json.arr [])])
      = Except.ok Verdict.valid ↔ (0 : ℚ) < 0 ∧ (0 : ℚ) < 25998 / 100) ∧
    (validate_harmonized_schema (Json.obj
        [("device_id", Json.str "S-101"), ("generation_timestamp", Json.str "g"),
         ("time_window", Json.str "w"),
         ("summary", Json.obj [("total_revenue", Json.num (25998 / 100)),
                               ("record_count", Json.num 0)]),
         ("records", Json.arr [])])
      = Except.ok true ↔ (0 : ℚ) < 0 ∧ (0 : ℚ) < 25998 / 100) ∧
    (validate_harmonized_schema (Json.obj
        [("device_id", Json.str "S-101"), ("generation_timestamp", Json.str "g"),
         ("time_window", Json.str "w"),
         ("summary", Json.obj [("total_revenue", Json.num (25998 / 100)),
                               ("record_count", Json.num 0)]),
         ("records", Json.arr [])])
      = Except.ok false ↔ (0 : ℚ) ≤ 0 ∨ (25998 / 100 : ℚ) ≤ 0) :=
  C6_zero_activity_rule
    [("device_id", Json.str "S-101"), ("generation_timestamp", Json.str "g"),
     ("time_window", Json.str "w"),
     ("summary", Json.obj [("total_revenue", Json.num (25998 / 100)),
                           ("record_count", Json.num 0)]),
     ("records", Json.arr [])]
    [("total_revenue", Json.num (25998 / 100)), ("record_count", Json.num 0)]
    0 (25998 / 100) rfl rfl rfl rfl

/-- A structurally complete candidate whose `summary` field is the number 1:
line 25's membership test `"total_revenue" not in summary` then raises a
Python `TypeError` (`argument of type 'int' is not iterable`). -/
def C7_BAD_CANDIDATE : Json :=
  Json.obj [("device_id", Json.str "S-101"),
            ("generation_timestamp", Json.str "2025-09-15T09:00:00"),
            ("time_window", Json.str "w"),
            ("summary", Json.num 1),
            ("records", Json.arr [])]

/-- Values Python can compare against `0` without a `TypeError` here. -/
def numLike : Json → Bool
  | Json.num _ => true
  | Json.bool _ => true
  | _ => false

/-- The summary shapes on which the Validator's summary accesses are
well-typed: a mapping whose `record_count` / `total_revenue` entries, where
present, are numbers or booleans. -/
def safeSummary : Json → Bool
  | Json.obj skvs =>
      ((skvs.find? (fun kv => kv.1 == "record_count")).elim true
        (fun kv => numLike kv.2)) &&
      ((skvs.find? (fun kv => kv.1 == "total_revenue")).elim true
        (fun kv => numLike kv.2))
  | _ => false

theorem any_find? {α : Type} (p : α → Bool) :
    ∀ {l : List α}, l.any p = true → ∃ x, l.find? p = some x := by
  intro l
  induction l with
  | nil => intro h; cases h
  | cons a as ih =>
    intro h
    cases hpa : p a with
    | true => exact ⟨a, List.find?_cons_of_pos _ hpa⟩
    | false =>
      have h2 : as.any p = true := by simpa [List.any_cons, hpa] using h
      rcases ih h2 with ⟨x, hx⟩
      exact ⟨x, by rw [List.find?_cons_of_neg _ (by simp [hpa]), hx]⟩

/-- C7 counterexample: the claim says the Validator returns a boolean
verdict for EVERY decoded value with any field types, never raising.  On
`C7_BAD_CANDIDATE` (all five core keys present, `summary` a number) the
comparison raises `TypeError` instead of producing a verdict. -/
theorem C7_counterexample :
    validate_harmonized_schema C7_BAD_CANDIDATE = Except.error PyErr.typeError ∧
    ∀ b, validate_harmonized_schema C7_BAD_CANDIDATE ≠ Except.ok b := by
  refine ⟨rfl, ?_⟩
  intro b hb
  rw [show validate_harmonized_schema C7_BAD_CANDIDATE
      = Except.error PyErr.typeError from rfl] at hb
  cases hb

/-- C7 amended: the Validator returns a boolean verdict (never an
exception) for every non-mapping candidate — a list or null yields invalid,
not a crash — and for every mapping whose `summary` value (default `{}`)
is itself a mapping with number- or boolean-valued `record_count` /
`total_revenue` entries; a candidate like `C7_BAD_CANDIDATE` raises
`TypeError` instead. -/
theorem C7_total_verdict_amended (d : Json)
    (hsafe : ∀ kvs, d = Json.obj kvs →
      safeSummary ((kvs.find? (fun kv => kv.1 == "summary")).elim (Json.obj [])
        (fun kv => kv.2)) = true) :
    (∃ b, validate_harmonized_schema d = Except.ok b) ∧
    ((∀ kvs, d ≠ Json.obj kvs) → validate_harmonized_schema d = Except.ok false) := by
  cases d with
  | null => exact ⟨⟨false, rfl⟩, fun _ => rfl⟩
  | bool b => exact ⟨⟨false, rfl⟩, fun _ => rfl⟩
  | num q => exact ⟨⟨false, rfl⟩, fun _ => rfl⟩
  | str s => exact ⟨⟨false, rfl⟩, fun _ => rfl⟩
  | arr xs => exact ⟨⟨false, rfl⟩, fun _ => rfl⟩
  | obj kvs =>
    refine ⟨?_, fun hno => absurd rfl (hno kvs)⟩
    have hs := hsafe kvs rfl
    suffices h : ∃ v, validateVerdict (Json.obj kvs) = Except.ok v by
      rcases h with ⟨v, hv⟩
      refine ⟨v == Verdict.valid, ?_⟩
      unfold validate_harmonized_schema
      rw [hv]
    by_cases hk : required_keys.all (fun key => kvs.any (fun kv => kv.1 == key)) = true
    · cases hfind : kvs.find? (fun kv => kv.1 == "summary") with
      | none =>
        rw [hfind, Option.elim] at hs
        simp [safeSummary] at hs
        refine ⟨Verdict.missingSummaryKeys, ?_⟩
        simp [validateVerdict, hk, hfind, pyContains]
      | some kv =>
        rw [hfind, Option.elim] at hs
        cases hkv2 : kv.2 with
        | obj skvs =>
          rw [hkv2] at hs
          by_cases hTRm : skvs.any (fun kv2 => kv2.1 == "total_revenue") = true
          · by_cases hRCm : skvs.any (fun kv2 => kv2.1 == "record_count") = true
            · rcases any_find? _ hRCm with ⟨pr, hpr⟩
              rcases any_find? _ hTRm with ⟨pt, hpt⟩
              have hs2 := hs
              simp only [safeSummary, hpr, hpt, Option.elim, Bool.and_eq_true] at hs2
              have hok_r : ∃ br, pyLeZero pr.2 = Except.ok br := by
                cases hpr2 : pr.2 with
                | num q => exact ⟨decide (q ≤ 0), rfl⟩
                | bool b2 => exact ⟨b2 == false, rfl⟩
                | null => rw [hpr2] at hs2; simp [numLike] at hs2
                | str s2 => rw [hpr2] at hs2; simp [numLike] at hs2
                | arr xs2 => rw [hpr2] at hs2; simp [numLike] at hs2
                | obj o2 => rw [hpr2] at hs2; simp [numLike] at hs2
              have hok_t : ∃ bt, pyLeZero pt.2 = Except.ok bt := by
                cases hpt2 : pt.2 with
                | num q => exact ⟨decide (q ≤ 0), rfl⟩
                | bool b2 => exact ⟨b2 == false, rfl⟩
                | null => rw [hpt2] at hs2; simp [numLike] at hs2
                | str s2 => rw [hpt2] at hs2; simp [numLike] at hs2
                | arr xs2 => rw [hpt2] at hs2; simp [numLike] at hs2
                | obj o2 => rw [hpt2] at hs2; simp [numLike] at hs2
              rcases hok_r with ⟨br, hbr⟩
              rcases hok_t with ⟨bt, hbt⟩
              refine ⟨if br then Verdict.zeroActivity
                      else if bt then Verdict.zeroActivity else Verdict.valid, ?_⟩
              simp only [validateVerdict, hk, if_true, hfind, Option.elim, hkv2,
                pyContains, hTRm, hRCm, Bool.not_true, Bool.false_eq_true, if_false,
                pyGet, hpr, hpt, hbr, hbt]
              cases br with
              | true => simp
              | false =>
                cases bt with
                | true => simp
                | false => simp
            · refine ⟨Verdict.missingSummaryKeys, ?_⟩
              have hRCm2 : skvs.any (fun kv2 => kv2.1 == "record_count") = false :=
                Bool.not_eq_true _ ▸ hRCm
              simp [validateVerdict, hk, hfind, hkv2, pyContains, hTRm, hRCm2]
          · refine ⟨Verdict.missingSummaryKeys, ?_⟩
            have hTRm2 : skvs.any (fun kv2 => kv2.1 == "total_revenue") = false :=
              Bool.not_eq_true _ ▸ hTRm
            simp [validateVerdict, hk, hfind, hkv2, pyContains, hTRm2]
        | null => rw [hkv2] at hs; simp [safeSummary] at hs
        | bool b2 => rw [hkv2] at hs; simp [safeSummary] at hs
        | num q2 => rw [hkv2] at hs; simp [safeSummary] at hs
        | str s2 => rw [hkv2] at hs; simp [safeSummary] at hs
        | arr xs2 => rw [hkv2] at hs; simp [safeSummary] at hs
    · refine ⟨Verdict.missingCoreKeys, ?_⟩
      have hk2 : required_keys.all (fun key => kvs.any (fun kv => kv.1 == key)) = false :=
        Bool.not_eq_true _ ▸ hk
      simp [validateVerdict, hk2]

/-- Witness for C7: a list candidate yields the invalid verdict with no
exception. -/
theorem C7_witness :
    (∃ b, validate_harmonized_schema (Json.arr []) = Except.ok b) ∧
    ((∀ kvs, Json.arr [] ≠ Json.obj kvs) →
      validate_harmonized_schema (Json.arr []) = Except.ok false) :=
  C7_total_verdict_amended (Json.arr []) (fun _ h => Json.noConfusion h)

theorem strContains_iff (s sub : String) :
    strContains s sub = true ↔ ∃ s1 s2 : String, s = s1 ++ sub ++ s2 := by
  unfold strContains
  rw [List.any_eq_true]
  constructor
  · rintro ⟨t, ht, hpre⟩
    have hsuf : t <:+ s.data := (List.mem_tails _ _).mp ht
    have hp : sub.data <+: t := List.isPrefixOf_iff_prefix.mp hpre
    rcases hsuf with ⟨pre, hpre2⟩
    rcases hp with ⟨post, hpost⟩
    refine ⟨⟨pre⟩, ⟨post⟩, String.ext ?_⟩
    rw [String.data_append, String.data_append]
    rw [← hpre2, ← hpost]
    simp [List.append_assoc]
  · rintro ⟨s1, s2, rfl⟩
    refine ⟨sub.data ++ s2.data, ?_, ?_⟩
    · refine (List.mem_tails _ _).mpr ⟨s1.data, ?_⟩
      rw [String.data_append, String.data_append, List.append_assoc]
    · exact List.isPrefixOf_iff_prefix.mpr (List.prefix_append _ _)

theorem pyEndsWith_iff (s pat : String) :
    pyEndsWith s pat = true ↔ ∃ s1 : String, s = s1 ++ pat := by
  unfold pyEndsWith
  rw [List.isSuffixOf_iff_suffix]
  constructor
  · rintro ⟨pre, hpre⟩
    exact ⟨⟨pre⟩, String.ext (by rw [String.data_append]; exact hpre.symm)⟩
  · rintro ⟨s1, rfl⟩
    exact ⟨s1.data, by rw [String.data_append]⟩

/-- C8 counterexample: the claim says only names BEGINNING with `latest/`
are routed to the Validator.  The code tests substring containment
(`"latest/" not in url`), so `foo/latest/a.json` — which does not begin
with `latest/` — is routed anyway. -/
theorem C8_counterexample :
    routesToValidator (some "foo/latest/a.json") = true ∧
    specBeginsWith "foo/latest/a.json" "latest/" = false ∧
    ¬ ∃ s2 : String, "foo/latest/a.json" = "latest/" ++ s2 := by
  refine ⟨rfl, rfl, ?_⟩
  rintro ⟨s2, hs⟩
  have h2 := congrArg String.data hs
  rw [String.data_append] at h2
  have h3 := congrArg List.head? h2
  simp at h3

/-- C8 amended: an artifact-creation event is routed to the Validator iff
its url is present, non-empty, CONTAINS `latest/` as a substring (not
necessarily as a leading segment) and ends with `.json`; everything else
is ignored. -/
theorem C8_routing_amended (u : String) :
    routesToValidator (some u) = true ↔
      (u ≠ "" ∧ (∃ s1 s2 : String, u = s1 ++ "latest/" ++ s2) ∧
       ∃ s3 : String, u = s3 ++ ".json") := by
  unfold routesToValidator
  rw [Bool.and_eq_true, Bool.and_eq_true]
  constructor
  · rintro ⟨⟨hne, hc⟩, he⟩
    refine ⟨?_, (strContains_iff u "latest/").mp hc, (pyEndsWith_iff u ".json").mp he⟩
    intro hu
    subst hu
    simp at hne
  · rintro ⟨hne, hc, he⟩
    exact ⟨⟨by simp [hne], (strContains_iff u "latest/").mpr hc⟩,
           (pyEndsWith_iff u ".json").mpr he⟩

/-- Routing also ignores an absent url and a non-json name outright. -/
theorem C8_ignores_others :
    routesToValidator none = false ∧
    routesToValidator (some "") = false ∧
    routesToValidator (some "by-timestamp/20250915090000/device-S-101.json") = false ∧
    routesToValidator (some "latest/device-S-101.txt") = false :=
  ⟨rfl, rfl, rfl, rfl⟩
